import Mathlib

/-!
Shallow embedding of the evsrt.org cloud functions:
  * `src/aws/lambda/discord-reminder-bot/lambda_function.py`
    (schedule predicate, weekday-occurrence counter, phrase list)
  * `src/aws/lambda/email-unsub/lambda_function.py`
    (HMAC-SHA256 unsubscribe tokens, verification, request handler)
  * `src/aws/lambda/email-digest/lambda_function.py`
    (unsubscribe-URL construction)

Python integers are modelled as `Nat` (with explicit `% 2^32` where the
SHA-256 word arithmetic wraps), Python `str` as `String`, absent values and
fallible operations as `Option`/`Except`.
-/

namespace Evsrt

/-! ### Calendar arithmetic

Model of the proleptic-Gregorian `datetime.date` used by the reminder bot.
`pyWeekday` matches Python's `datetime.weekday()`: Monday = 0 … Sunday = 6
(0001-01-01, ordinal 1, is a Monday). -/

def isLeap (y : Nat) : Bool := (y % 4 == 0 && y % 100 != 0) || (y % 400 == 0)

def daysInMonth (y m : Nat) : Nat :=
  if m = 2 then (if isLeap y then 29 else 28)
  else if m = 4 ∨ m = 6 ∨ m = 9 ∨ m = 11 then 30
  else 31

def daysBeforeMonth (y m : Nat) : Nat :=
  (List.range' 1 (m - 1)).foldl (fun acc k => acc + daysInMonth y k) 0

def daysBeforeYear (y : Nat) : Nat :=
  365 * (y - 1) + (y - 1) / 4 - (y - 1) / 100 + (y - 1) / 400

def toOrdinal (y m d : Nat) : Nat := daysBeforeYear y + daysBeforeMonth y m + d

def pyWeekday (y m d : Nat) : Nat := (toOrdinal y m d + 6) % 7

/-- A timezone-local timestamp as consumed by the reminder bot: the fields of
`now_pt` that `should_trigger` and `get_weekday_occurrence_in_month` read. -/
structure LocalTime where
  year : Nat
  month : Nat
  day : Nat
  hour : Nat
deriving DecidableEq, Repr

def LocalTime.weekday (t : LocalTime) : Nat := pyWeekday t.year t.month t.day

/-! ### Reminder bot (`discord-reminder-bot/lambda_function.py`) -/

/-- A schedule rule.  `week_of_month` is `none` when the dict lacks the key
(the source checks `'week_of_month' in schedule`). -/
structure Schedule where
  name : String
  days_of_week : List Nat
  week_of_month : Option (List Nat)
  hour : Nat

/-- Model of `get_weekday_occurrence_in_month` (lines 75-81): loop over
`range(1, dt.day + 1)` incrementing `count` whenever the day's weekday equals
`dt`'s weekday. -/
def get_weekday_occurrence_in_month (t : LocalTime) : Nat :=
  (List.range' 1 t.day).foldl
    (fun count day =>
      if pyWeekday t.year t.month day = t.weekday then count + 1 else count) 0

/-- Model of `should_trigger` (lines 63-73). -/
def should_trigger (s : Schedule) (now : LocalTime) : Bool :=
  if now.weekday ∉ s.days_of_week then false
  else if now.hour ≠ s.hour then false
  else
    match s.week_of_month with
    | some wom =>
        let nth := get_weekday_occurrence_in_month now
        if nth ∉ wom then false else true
    | none => true

/-- The `strings` list of `cw_random_string` (lines 8-16).  In the source the
entry `"Practice CW or die."` is followed by the next string literal with no
comma in between, so Python concatenates the two adjacent literals into one
element: the list has 6 elements, not 7. -/
def cwStrings : List String :=
  [ "Hey silly-face, did you get your 15 minutes of CW practice in today?",
    "Hey lazy-ass, did you get your 15 minutes of CW practice in today?",
    "PRACTICE CW FOR 15 MINUTES, AT LEAST!",
    "Practice CW or die.Did you get your 15 minutes of CW practice in today?",
    "Not decoding 20 WPM yet, eh? Did you practice today? Mmm-hmm...",
    "You can decrease the number of people you will disappoint with your CW by practicing more. Did you practice today?" ]

/-- Model of `cw_random_string` (lines 7-21) as a function of the Pacific-time weekday
it indexes with: `strings[now_pt.weekday()]`.  Python raises `IndexError` on
an out-of-range index, modelled by `none`. -/
def cw_random_string (weekday : Nat) : Option String := cwStrings.get? weekday

/-- The spec's `occurrence_in_month`: the 1-based count of how many times the
timestamp's weekday has occurred in its month up to and including its day. -/
def occurrenceSpec (t : LocalTime) : Nat :=
  ((List.range' 1 t.day).filter
    (fun day => pyWeekday t.year t.month day == t.weekday)).length

/-! ### SHA-256 and HMAC

Executable model of Python's `hashlib.sha256` and `hmac.new(..., hashlib.sha256)`
as used by `generate_verification_token`.  Bytes and 32-bit words are `Nat`,
with wrap-around written as `% w32`. -/

def w32 : Nat := 4294967296

def rotr (n x : Nat) : Nat := (x >>> n) ||| ((x <<< (32 - n)) % w32)

def bigSigma0 (x : Nat) : Nat := rotr 2 x ^^^ rotr 13 x ^^^ rotr 22 x

def bigSigma1 (x : Nat) : Nat := rotr 6 x ^^^ rotr 11 x ^^^ rotr 25 x

def smallSigma0 (x : Nat) : Nat := rotr 7 x ^^^ rotr 18 x ^^^ (x >>> 3)

def smallSigma1 (x : Nat) : Nat := rotr 17 x ^^^ rotr 19 x ^^^ (x >>> 10)

def chFn (x y z : Nat) : Nat := (x &&& y) ^^^ ((x ^^^ (w32 - 1)) &&& z)

def majFn (x y z : Nat) : Nat := (x &&& y) ^^^ (x &&& z) ^^^ (y &&& z)

def shaK : List Nat :=
  [ 1116352408, 1899447441, 3049323471, 3921009573,
    961987163, 1508970993, 2453635748, 2870763221,
    3624381080, 310598401, 607225278, 1426881987,
    1925078388, 2162078206, 2614888103, 3248222580,
    3835390401, 4022224774, 264347078, 604807628,
    770255983, 1249150122, 1555081692, 1996064986,
    2554220882, 2821834349, 2952996808, 3210313671,
    3336571891, 3584528711, 113926993, 338241895,
    666307205, 773529912, 1294757372, 1396182291,
    1695183700, 1986661051, 2177026350, 2456956037,
    2730485921, 2820302411, 3259730800, 3345764771,
    3516065817, 3600352804, 4094571909, 275423344,
    430227734, 506948616, 659060556, 883997877,
    958139571, 1322822218, 1537002063, 1747873779,
    1955562222, 2024104815, 2227730452, 2361852424,
    2428436474, 2756734187, 3204031479, 3329325298 ]

structure SHAState where
  a : Nat
  b : Nat
  c : Nat
  d : Nat
  e : Nat
  f : Nat
  g : Nat
  hh : Nat
deriving Repr, DecidableEq

def initState : SHAState :=
  ⟨1779033703, 3144134277, 1013904242, 2773480762,
   1359893119, 2600822924, 528734635, 1541459225⟩

def shaRound (st : SHAState) (kw : Nat × Nat) : SHAState :=
  let t1 := (st.hh + bigSigma1 st.e + chFn st.e st.f st.g + kw.1 + kw.2) % w32
  let t2 := (bigSigma0 st.a + majFn st.a st.b st.c) % w32
  ⟨(t1 + t2) % w32, st.a, st.b, st.c, (st.d + t1) % w32, st.e, st.f, st.g⟩

/-- Big-endian packing of bytes into 32-bit words. -/
def bytesToWords : List Nat → List Nat
  | b0 :: b1 :: b2 :: b3 :: rest =>
      ((((b0 <<< 8) ||| b1) <<< 8 ||| b2) <<< 8 ||| b3) :: bytesToWords rest
  | _ => []

/-- Extend a 16-word block to the 64-word message schedule. -/
def buildSchedule (ws : List Nat) : List Nat :=
  (List.range 48).foldl
    (fun acc _ =>
      let n := acc.length
      acc ++ [(smallSigma1 (acc.getD (n - 2) 0) + acc.getD (n - 7) 0 +
               smallSigma0 (acc.getD (n - 15) 0) + acc.getD (n - 16) 0) % w32])
    ws

def compressBlock (st : SHAState) (block : List Nat) : SHAState :=
  let ws := buildSchedule (bytesToWords block)
  let r := (shaK.zip ws).foldl shaRound st
  ⟨(st.a + r.a) % w32, (st.b + r.b) % w32, (st.c + r.c) % w32,
   (st.d + r.d) % w32, (st.e + r.e) % w32, (st.f + r.f) % w32,
   (st.g + r.g) % w32, (st.hh + r.hh) % w32⟩

/-- Big-endian 8-byte encoding of the bit length. -/
def lengthBytes (n : Nat) : List Nat :=
  [ (n >>> 56) % 256, (n >>> 48) % 256, (n >>> 40) % 256, (n >>> 32) % 256,
    (n >>> 24) % 256, (n >>> 16) % 256, (n >>> 8) % 256, n % 256 ]

/-- SHA-256 padding: `0x80`, zeros to 56 mod 64, then the 64-bit bit length. -/
def padMessage (msg : List Nat) : List Nat :=
  let len := msg.length
  let zeros := (120 - (len + 1) % 64) % 64
  msg ++ 128 :: (List.replicate zeros 0 ++ lengthBytes (8 * len))

def chunksGo : Nat → List Nat → List (List Nat)
  | _, [] => []
  | 0, _ => []
  | fuel + 1, a :: rest => (a :: rest).take 64 :: chunksGo fuel (rest.drop 63)

/-- Split into 64-byte blocks.  `l.length` is always enough fuel, since every
step consumes at least one element of a nonempty list. -/
def chunks64 (l : List Nat) : List (List Nat) := chunksGo l.length l

def wordBytes (x : Nat) : List Nat :=
  [(x >>> 24) % 256, (x >>> 16) % 256, (x >>> 8) % 256, x % 256]

def digestBytes (st : SHAState) : List Nat :=
  wordBytes st.a ++ wordBytes st.b ++ wordBytes st.c ++ wordBytes st.d ++
  wordBytes st.e ++ wordBytes st.f ++ wordBytes st.g ++ wordBytes st.hh

/-- Model of `hashlib.sha256(msg).digest()` over a byte list. -/
def sha256 (msg : List Nat) : List Nat :=
  digestBytes ((chunks64 (padMessage msg)).foldl compressBlock initState)

/-- Model of `hmac.new(key, msg, hashlib.sha256).digest()` over byte lists. -/
def hmacSha256 (key msg : List Nat) : List Nat :=
  let k0 := if 64 < key.length then sha256 key else key
  let k1 := k0 ++ List.replicate (64 - k0.length) 0
  let ipadKey := k1.map (fun b => b ^^^ 54)
  let opadKey := k1.map (fun b => b ^^^ 92)
  sha256 (opadKey ++ sha256 (ipadKey ++ msg))

/-! ### Strings, hex digests, tokens -/

/-- UTF-8 encoding of one code point (Python `str.encode('utf-8')`). -/
def utf8Bytes (c : Char) : List Nat :=
  let n := c.toNat
  if n < 128 then [n]
  else if n < 2048 then [192 + n / 64, 128 + n % 64]
  else if n < 65536 then [224 + n / 4096, 128 + (n / 64) % 64, 128 + n % 64]
  else [240 + n / 262144, 128 + (n / 4096) % 64, 128 + (n / 64) % 64,
        128 + n % 64]

def strBytes (s : String) : List Nat := s.data.flatMap utf8Bytes

def hexDigit (n : Nat) : Char :=
  if n < 10 then Char.ofNat (48 + n) else Char.ofNat (87 + n)

def toHexChars : List Nat → List Char
  | [] => []
  | b :: rest => hexDigit (b / 16) :: hexDigit (b % 16) :: toHexChars rest

/-- Lowercase hex rendering of a digest, as `.hexdigest()` returns it. -/
def hexdigest (bytes : List Nat) : String := String.mk (toHexChars bytes)

/-- Python string slicing `s[:n]` (by code points). -/
def strTake (s : String) (n : Nat) : String := String.mk (s.data.take n)

/-- Model of `generate_verification_token` (email-unsub lines 9-28, identical copy in
email-digest lines 550-569): first 12 hex characters of
`HMAC_SHA256(secret_key, email + ":" + list_id)`. -/
def generate_verification_token (email list_id secret_key : String) : String :=
  let message := strBytes (email ++ ":" ++ list_id)
  let token := hexdigest (hmacSha256 (strBytes secret_key) message)
  strTake token 12

def isASCIIStr (s : String) : Bool := s.data.all (fun c => c.toNat < 128)

/-- Python `hmac.compare_digest` on two `str` arguments: constant-time
equality, but raises `TypeError` (modelled as `.error`) unless both strings
are ASCII-only. -/
def compare_digest (a b : String) : Except String Bool :=
  if isASCIIStr a && isASCIIStr b then .ok (a == b) else .error "TypeError"

/-- Model of `verify_token` (email-unsub lines 31-44). -/
def verify_token (email list_id provided_token secret_key : String) :
    Except String Bool :=
  let expected_token := generate_verification_token email list_id secret_key
  compare_digest expected_token provided_token

deriving instance DecidableEq for Except

/-! ### The email-unsub `lambda_handler` -/

/-- Python `str.lower()` restricted to ASCII: code points 65-90 are shifted
to lowercase, everything else is left unchanged.  CPython applies the full
Unicode case mapping (e.g. lowering U+00C9 to U+00E9, and mapping some
single characters to several), which has no tractable shallow embedding; on
strings all of whose characters are ASCII this model coincides with CPython
exactly, so theorems whose content depends on the lowering carry an
ASCII-string hypothesis to stay within that domain. -/
def pyLowerChar (c : Char) : Char :=
  if 65 ≤ c.toNat ∧ c.toNat ≤ 90 then Char.ofNat (c.toNat + 32) else c

def pyLower (s : String) : String := String.mk (s.data.map pyLowerChar)

/-- Model of `dict.get(k)` over the query-string parameters. -/
def lookupParam (params : List (String × String)) (k : String) : Option String :=
  (params.find? (fun p => p.1 == k)).map (fun p => p.2)

/-- Python truthiness of an optional string (`None` and `''` are falsy). -/
def truthy : Option String → Bool
  | none => false
  | some s => s != ""

/-- Observable outcome of a handler run: the returned `statusCode`, and
whether `remove_from_sendgrid_list` was reached. -/
structure HandlerResult where
  statusCode : Nat
  removalAttempted : Bool
deriving DecidableEq, Repr

/-- Model of `lambda_handler` (email-unsub lines 92-202).  `queryParams` is
`event.get('queryStringParameters')` (`none` for absent/null), `env` the
process environment, and `removeOk` the outcome of the SendGrid removal
call (network I/O, supplied as an oracle).  A `TypeError` escaping
`verify_token` is caught by the handler's outer `try`/`except`, which
returns 500. -/
def lambda_handler (queryParams : Option (List (String × String)))
    (env : String → Option String) (removeOk : Bool) : HandlerResult :=
  match queryParams with
  | none => ⟨400, false⟩
  | some params =>
    if params.isEmpty then ⟨400, false⟩
    else
      let email := pyLower ((lookupParam params "email").getD "")
      let list_id := lookupParam params "list"
      let provided_token := lookupParam params "verify"
      if !(email != "" && truthy list_id && truthy provided_token) then
        ⟨400, false⟩
      else
        let apiKey := env "SENDGRID_API_KEY"
        let secret := env "UNSUBSCRIBE_SECRET"
        if !(truthy apiKey && truthy secret) then ⟨500, false⟩
        else
          match verify_token email (list_id.getD "") (provided_token.getD "")
              (secret.getD "") with
          | .error _ => ⟨500, false⟩
          | .ok false => ⟨403, false⟩
          | .ok true => if removeOk then ⟨200, true⟩ else ⟨500, true⟩

/-! ### The email-digest unsubscribe link (email-digest line 649) -/

/-- The `unsub_url` f-string, with `listId` the list id selected for the
recipient's type: the token is sent under the query parameter `token`. -/
def unsub_url (base recipient_email listId secret : String) : String :=
  "https://" ++ base ++ "?email=" ++ recipient_email ++ "&list=" ++ listId ++
    "&token=" ++ generate_verification_token recipient_email listId secret

/-- Split a character list on a separator (accumulator-passing). -/
def splitOnCharGo (sep : Char) : List Char → List Char → List (List Char)
  | [], acc => [acc.reverse]
  | c :: rest, acc =>
      if c = sep then acc.reverse :: splitOnCharGo sep rest []
      else splitOnCharGo sep rest (c :: acc)

/-- Split `key=value` on the first `=`. -/
def splitPair (l : List Char) : String × String :=
  (String.mk (l.takeWhile (fun c => c != '=')),
   String.mk ((l.dropWhile (fun c => c != '=')).drop 1))

/-- Standard query-string extraction from a URL: the part after the first
`?`, split on `&`, each piece split on the first `=` (what API Gateway does
to populate `queryStringParameters`). -/
def queryOfUrl (url : String) : List (String × String) :=
  ((splitOnCharGo '&' ((url.data.dropWhile (fun c => c != '?')).drop 1) []).map
    splitPair)

/-- A string safe to splice into a query string: no `&`, `=` or `?`. -/
def noQuerySpecials (s : String) : Prop :=
  ∀ c ∈ s.data, c ≠ '&' ∧ c ≠ '=' ∧ c ≠ '?'

def isHexDigitChar (c : Char) : Bool :=
  (('0' ≤ c) && (c ≤ '9')) || (('a' ≤ c) && (c ≤ 'f'))

theorem foldl_count_eq_countP (p : Nat → Prop) [DecidablePred p] (l : List Nat)
    (n : Nat) :
    l.foldl (fun c a => if p a then c + 1 else c) n
      = n + l.countP (fun a => decide (p a)) := by
  induction l generalizing n with
  | nil => simp
  | cons a l ih =>
      by_cases h : p a
      · simp [List.countP_cons, h, ih]; omega
      · simp [List.countP_cons, h, ih]

theorem occurrence_eq_spec (t : LocalTime) :
    get_weekday_occurrence_in_month t = occurrenceSpec t := by
  unfold get_weekday_occurrence_in_month occurrenceSpec
  rw [foldl_count_eq_countP, ← List.countP_eq_length_filter, Nat.zero_add]
  congr 1

theorem wordBytes_lt (x : Nat) : ∀ b ∈ wordBytes x, b < 256 := by
  intro b hb
  simp [wordBytes] at hb
  rcases hb with rfl | rfl | rfl | rfl <;> omega

theorem digestBytes_lt (st : SHAState) : ∀ b ∈ digestBytes st, b < 256 := by
  intro b hb
  simp only [digestBytes, List.mem_append] at hb
  rcases hb with ((((((h | h) | h) | h) | h) | h) | h) | h <;>
    exact wordBytes_lt _ _ h

theorem sha256_byte_lt (msg : List Nat) : ∀ b ∈ sha256 msg, b < 256 := by
  unfold sha256
  exact digestBytes_lt _

theorem digestBytes_length (st : SHAState) : (digestBytes st).length = 32 := by
  simp [digestBytes, wordBytes]

theorem sha256_length (msg : List Nat) : (sha256 msg).length = 32 := by
  unfold sha256
  exact digestBytes_length _

theorem toHexChars_length (bs : List Nat) :
    (toHexChars bs).length = 2 * bs.length := by
  induction bs with
  | nil => simp [toHexChars]
  | cons b rest ih => simp [toHexChars, ih]; omega

theorem toHexChars_mem {bs : List Nat} {c : Char}
    (hb : ∀ b ∈ bs, b < 256) (hc : c ∈ toHexChars bs) :
    ∃ n, n < 16 ∧ c = hexDigit n := by
  induction bs with
  | nil => simp [toHexChars] at hc
  | cons b rest ih =>
      have hb0 : b < 256 := hb b (by simp)
      simp only [toHexChars, List.mem_cons] at hc
      rcases hc with rfl | rfl | hc
      · exact ⟨b / 16, by omega, rfl⟩
      · exact ⟨b % 16, by omega, rfl⟩
      · exact ih (fun x hx => hb x (by simp [hx])) hc

theorem hexDigit_props (n : Nat) (hn : n < 16) :
    isHexDigitChar (hexDigit n) = true ∧ (hexDigit n).toNat < 128 ∧
    hexDigit n ≠ '&' ∧ hexDigit n ≠ '=' ∧ hexDigit n ≠ '?' := by
  interval_cases n <;> exact ⟨by decide, by decide, by decide, by decide, by decide⟩

theorem hmac_length (key msg : List Nat) : (hmacSha256 key msg).length = 32 := by
  unfold hmacSha256
  exact sha256_length _

theorem token_length (e l s : String) :
    (generate_verification_token e l s).length = 12 := by
  unfold generate_verification_token strTake hexdigest
  show (List.take 12 _).length = 12
  rw [List.length_take, toHexChars_length, hmac_length]
  omega

theorem token_chars (e l s : String) :
    ∀ c ∈ (generate_verification_token e l s).data,
      ∃ n, n < 16 ∧ c = hexDigit n := by
  intro c hc
  unfold generate_verification_token strTake hexdigest at hc
  have hc' : c ∈ toHexChars (hmacSha256 (strBytes s)
      (strBytes (e ++ ":" ++ l))) := by
    exact List.mem_of_mem_take hc
  refine toHexChars_mem ?_ hc'
  unfold hmacSha256
  exact sha256_byte_lt _

theorem token_hexchars (e l s : String) :
    ∀ c ∈ (generate_verification_token e l s).data, isHexDigitChar c = true := by
  intro c hc
  obtain ⟨n, hn, rfl⟩ := token_chars e l s c hc
  exact (hexDigit_props n hn).1

theorem token_ascii (e l s : String) :
    isASCIIStr (generate_verification_token e l s) = true := by
  unfold isASCIIStr
  rw [List.all_eq_true]
  intro c hc
  obtain ⟨n, hn, rfl⟩ := token_chars e l s c hc
  have := (hexDigit_props n hn).2.1
  simpa using this

theorem token_no_specials (e l s : String) :
    noQuerySpecials (generate_verification_token e l s) := by
  intro c hc
  obtain ⟨n, hn, rfl⟩ := token_chars e l s c hc
  have h := hexDigit_props n hn
  exact ⟨h.2.2.1, h.2.2.2.1, h.2.2.2.2⟩

theorem takeWhile_append_stop {p : Char → Bool} (l1 : List Char) (c0 : Char)
    (l2 : List Char) (h : ∀ a ∈ l1, p a = true) (hc : p c0 = false) :
    (l1 ++ c0 :: l2).takeWhile p = l1 := by
  induction l1 with
  | nil => simp [List.takeWhile_cons, hc]
  | cons a rest ih =>
      have ha := h a (by simp)
      simp only [List.cons_append, List.takeWhile_cons, ha, if_true]
      rw [ih (fun x hx => h x (by simp [hx]))]

theorem dropWhile_append_stop {p : Char → Bool} (l1 : List Char) (c0 : Char)
    (l2 : List Char) (h : ∀ a ∈ l1, p a = true) (hc : p c0 = false) :
    (l1 ++ c0 :: l2).dropWhile p = c0 :: l2 := by
  induction l1 with
  | nil => simp [List.dropWhile_cons, hc]
  | cons a rest ih =>
      have ha := h a (by simp)
      simp only [List.cons_append, List.dropWhile_cons, ha, if_true]
      exact ih (fun x hx => h x (by simp [hx]))

theorem splitOnCharGo_no_sep (sep : Char) (l : List Char) (acc : List Char)
    (h : sep ∉ l) : splitOnCharGo sep l acc = [acc.reverse ++ l] := by
  induction l generalizing acc with
  | nil => simp [splitOnCharGo]
  | cons c rest ih =>
      simp only [List.mem_cons, not_or] at h
      obtain ⟨h1, h2⟩ := h
      simp only [splitOnCharGo, if_neg (show ¬(c = sep) from fun hh => h1 hh.symm)]
      rw [ih _ h2]
      simp

theorem splitOnCharGo_sep (sep : Char) (l1 l2 acc : List Char) (h : sep ∉ l1) :
    splitOnCharGo sep (l1 ++ sep :: l2) acc
      = (acc.reverse ++ l1) :: splitOnCharGo sep l2 [] := by
  induction l1 generalizing acc with
  | nil => simp [splitOnCharGo]
  | cons c rest ih =>
      simp only [List.mem_cons, not_or] at h
      obtain ⟨h1, h2⟩ := h
      simp only [List.cons_append, splitOnCharGo,
        if_neg (show ¬(c = sep) from fun hh => h1 hh.symm)]
      show splitOnCharGo sep (rest ++ sep :: l2) (c :: acc)
        = (acc.reverse ++ c :: rest) :: splitOnCharGo sep l2 []
      rw [ih _ h2]
      simp

theorem splitPair_eq (k v : List Char) (h : '=' ∉ k) :
    splitPair (k ++ '=' :: v) = (String.mk k, String.mk v) := by
  have h1 : ∀ a ∈ k, (a != '=') = true := by
    intro a ha
    simp only [bne_iff_ne, ne_eq]
    exact fun hh => h (hh ▸ ha)
  unfold splitPair
  rw [takeWhile_append_stop k '=' v h1 (by simp),
      dropWhile_append_stop k '=' v h1 (by simp)]
  simp

theorem pyLower_eq_empty_iff (s : String) : pyLower s = "" ↔ s = "" := by
  cases s with
  | mk data =>
      cases data with
      | nil => constructor <;> intro hh <;> rfl
      | cons c cs =>
          constructor <;> intro hh
          · have h2 : pyLowerChar c :: List.map pyLowerChar cs = ([] : List Char) :=
              congrArg String.data hh
            exact absurd h2 (List.cons_ne_nil _ _)
          · have h2 : c :: cs = ([] : List Char) := congrArg String.data hh
            exact absurd h2 (List.cons_ne_nil _ _)

theorem digest_query_params (base e l s : String)
    (hb : '?' ∉ base.data) (he : noQuerySpecials e) (hl : noQuerySpecials l) :
    queryOfUrl (unsub_url base e l s)
      = [("email", e), ("list", l),
         ("token", generate_verification_token e l s)] := by
  have htok := token_no_specials e l s
  have hdata : (unsub_url base e l s).data
      = ('h' :: 't' :: 't' :: 'p' :: 's' :: ':' :: '/' :: '/' :: base.data)
        ++ '?' :: (('e' :: 'm' :: 'a' :: 'i' :: 'l' :: '=' :: e.data)
        ++ '&' :: (('l' :: 'i' :: 's' :: 't' :: '=' :: l.data)
        ++ '&' :: ('t' :: 'o' :: 'k' :: 'e' :: 'n' :: '='
            :: (generate_verification_token e l s).data))) := by
    simp [unsub_url]
  have hq : ((unsub_url base e l s).data.dropWhile (fun c => c != '?')).drop 1
      = ('e' :: 'm' :: 'a' :: 'i' :: 'l' :: '=' :: e.data)
        ++ '&' :: (('l' :: 'i' :: 's' :: 't' :: '=' :: l.data)
        ++ '&' :: ('t' :: 'o' :: 'k' :: 'e' :: 'n' :: '='
            :: (generate_verification_token e l s).data)) := by
    have hall : ∀ a ∈ ('h' :: 't' :: 't' :: 'p' :: 's' :: ':' :: '/' :: '/'
        :: base.data), (a != '?') = true := by
      intro a ha
      simp only [List.mem_cons] at ha
      rcases ha with rfl | rfl | rfl | rfl | rfl | rfl | rfl | rfl | ha
      · decide
      · decide
      · decide
      · decide
      · decide
      · decide
      · decide
      · decide
      · simp only [bne_iff_ne, ne_eq]
        exact fun hh => hb (hh ▸ ha)
    rw [hdata, dropWhile_append_stop _ '?' _ hall (by decide)]
    rfl
  have hNoAmp1 : '&' ∉ ('e' :: 'm' :: 'a' :: 'i' :: 'l' :: '=' :: e.data) := by
    simp only [List.mem_cons, not_or]
    exact ⟨by decide, by decide, by decide, by decide, by decide, by decide,
      fun hmem => (he '&' hmem).1 rfl⟩
  have hNoAmp2 : '&' ∉ ('l' :: 'i' :: 's' :: 't' :: '=' :: l.data) := by
    simp only [List.mem_cons, not_or]
    exact ⟨by decide, by decide, by decide, by decide, by decide,
      fun hmem => (hl '&' hmem).1 rfl⟩
  have hNoAmp3 : '&' ∉ ('t' :: 'o' :: 'k' :: 'e' :: 'n' :: '='
      :: (generate_verification_token e l s).data) := by
    simp only [List.mem_cons, not_or]
    exact ⟨by decide, by decide, by decide, by decide, by decide, by decide,
      fun hmem => (htok '&' hmem).1 rfl⟩
  unfold queryOfUrl
  rw [hq, splitOnCharGo_sep '&' _ _ [] hNoAmp1,
      splitOnCharGo_sep '&' _ _ [] hNoAmp2,
      splitOnCharGo_no_sep '&' _ [] hNoAmp3]
  simp only [List.map_cons, List.map_nil, List.reverse_nil, List.nil_append]
  rw [show ('e' :: 'm' :: 'a' :: 'i' :: 'l' :: '=' :: e.data)
        = ('e' :: 'm' :: 'a' :: 'i' :: 'l' :: []) ++ '=' :: e.data from rfl,
      splitPair_eq _ _ (by decide)]
  rw [show ('l' :: 'i' :: 's' :: 't' :: '=' :: l.data)
        = ('l' :: 'i' :: 's' :: 't' :: []) ++ '=' :: l.data from rfl,
      splitPair_eq _ _ (by decide)]
  rw [show ('t' :: 'o' :: 'k' :: 'e' :: 'n' :: '='
          :: (generate_verification_token e l s).data)
        = ('t' :: 'o' :: 'k' :: 'e' :: 'n' :: []) ++ '='
          :: (generate_verification_token e l s).data from rfl,
      splitPair_eq _ _ (by decide)]

theorem lambda_handler_eval
    (params : List (String × String)) (env : String → Option String) (rm : Bool)
    (e l t key secret : String)
    (he : lookupParam params "email" = some e) (he2 : e ≠ "")
    (hl : lookupParam params "list" = some l) (hl2 : l ≠ "")
    (ht : lookupParam params "verify" = some t) (ht2 : t ≠ "")
    (hk : env "SENDGRID_API_KEY" = some key) (hk2 : key ≠ "")
    (hs : env "UNSUBSCRIBE_SECRET" = some secret) (hs2 : secret ≠ "") :
    lambda_handler (some params) env rm
      = match verify_token (pyLower e) l t secret with
        | .error _ => ⟨500, false⟩
        | .ok false => ⟨403, false⟩
        | .ok true => if rm then ⟨200, true⟩ else ⟨500, true⟩ := by
  have hne : params.isEmpty = false := by
    cases params with
    | nil => simp [lookupParam] at he
    | cons p ps => rfl
  have hpe : pyLower e ≠ "" := fun hh => he2 ((pyLower_eq_empty_iff e).mp hh)
  have c1 : (pyLower e != "") = true := bne_iff_ne.mpr hpe
  have c2 : (l != "") = true := bne_iff_ne.mpr hl2
  have c3 : (t != "") = true := bne_iff_ne.mpr ht2
  have c4 : (key != "") = true := bne_iff_ne.mpr hk2
  have c5 : (secret != "") = true := bne_iff_ne.mpr hs2
  unfold lambda_handler
  simp only [hne, he, hl, ht, hk, hs, Option.getD_some, truthy,
    c1, c2, c3, c4, c5, Bool.and_self, Bool.and_true, Bool.true_and,
    Bool.not_true, Bool.false_eq_true, if_false]

theorem mem_range_one {k s n : Nat} : k ∈ List.range' s n ↔ s ≤ k ∧ k < s + n := by
  rw [List.mem_range']
  constructor
  · rintro ⟨i, hi, rfl⟩; omega
  · intro h; exact ⟨k - s, by omega, by omega⟩

theorem occurrence_countP (t : LocalTime) :
    get_weekday_occurrence_in_month t
      = (List.range' 1 t.day).countP
          (fun day => pyWeekday t.year t.month day == t.weekday) := by
  rw [occurrence_eq_spec, occurrenceSpec, ← List.countP_eq_length_filter]

/-- C1: `should_trigger(rule, now)` is true iff `now.weekday` is in
`rule.days_of_week`, `now.hour` equals `rule.hour`, and the rule either has
no `week_of_month` field or the 1-based occurrence of `now`'s weekday in the
month is in `rule.week_of_month`; in particular a rule whose `days_of_week`
excludes `now.weekday` never triggers, regardless of hour. -/
theorem should_trigger_iff_due (s : Schedule) (now : LocalTime) :
    (should_trigger s now = true ↔
      now.weekday ∈ s.days_of_week ∧ now.hour = s.hour ∧
        (s.week_of_month = none ∨
          ∃ wom, s.week_of_month = some wom ∧
            get_weekday_occurrence_in_month now ∈ wom)) ∧
    (now.weekday ∈ s.days_of_week ∨ should_trigger s now = false) := by
  unfold should_trigger
  constructor
  · by_cases h1 : now.weekday ∈ s.days_of_week
    · by_cases h2 : now.hour = s.hour
      · cases hw : s.week_of_month with
        | none => simp [h1, h2]
        | some wom =>
            by_cases h3 : get_weekday_occurrence_in_month now ∈ wom <;>
              simp [h1, h2, h3]
      · simp [h1, h2]
    · simp [h1]
  · by_cases h1 : now.weekday ∈ s.days_of_week
    · exact Or.inl h1
    · right; simp [h1]

/-- C2: `get_weekday_occurrence_in_month` is the 1-based count of the
timestamp's weekday in its month up to and including its day: it agrees with
the direct count everywhere, returns 1, 2, 3 on 2024-12-01, -08, -15, and in a
month whose weekday `w` occurs five times it returns 1 on the first such day
and 5 on the last. -/
theorem occurrence_in_month_correct (y m w dF dL : Nat)
    (hF1 : pyWeekday y m dF = w) (hF0 : 1 ≤ dF)
    (hFmin : ∀ k ∈ List.range' 1 (dF - 1), pyWeekday y m k ≠ w)
    (hL1 : pyWeekday y m dL = w) (hLle : dL ≤ daysInMonth y m)
    (hLmax : ∀ k ∈ List.range' (dL + 1) (daysInMonth y m - dL),
      pyWeekday y m k ≠ w)
    (hcount : (List.range' 1 (daysInMonth y m)).countP
      (fun k => pyWeekday y m k == w) = 5) :
    (∀ t : LocalTime, get_weekday_occurrence_in_month t = occurrenceSpec t) ∧
    get_weekday_occurrence_in_month ⟨2024, 12, 1, 0⟩ = 1 ∧
    get_weekday_occurrence_in_month ⟨2024, 12, 8, 0⟩ = 2 ∧
    get_weekday_occurrence_in_month ⟨2024, 12, 15, 0⟩ = 3 ∧
    get_weekday_occurrence_in_month ⟨y, m, dF, 0⟩ = 1 ∧
    get_weekday_occurrence_in_month ⟨y, m, dL, 5⟩ = 5 := by
  refine ⟨occurrence_eq_spec, by decide, by decide, by decide, ?_, ?_⟩
  · have h := occurrence_countP ⟨y, m, dF, 0⟩
    simp only [LocalTime.weekday] at h
    rw [h, hF1]
    have hsplit : List.range' 1 dF = List.range' 1 (dF - 1) ++ [dF] := by
      have e1 : 1 + (dF - 1) = dF := by omega
      calc List.range' 1 dF = List.range' 1 (1 + (dF - 1)) := by rw [e1]
        _ = List.range' 1 (dF - 1) ++ List.range' (1 + (dF - 1)) 1 :=
              (List.range'_append_1 1 (dF - 1) 1).symm
        _ = List.range' 1 (dF - 1) ++ [dF] := by rw [e1, List.range'_one]
    rw [hsplit, List.countP_append]
    have h0 : (List.range' 1 (dF - 1)).countP
        (fun day => pyWeekday y m day == w) = 0 :=
      List.countP_eq_zero.mpr (fun a ha => by simpa using hFmin a ha)
    simp [h0, hF1]
  · have h := occurrence_countP ⟨y, m, dL, 5⟩
    simp only [LocalTime.weekday] at h
    rw [h, hL1]
    have e1 : (daysInMonth y m - dL) + dL = daysInMonth y m := by omega
    have hsplit : List.range' 1 (daysInMonth y m)
        = List.range' 1 dL ++ List.range' (1 + dL) (daysInMonth y m - dL) := by
      calc List.range' 1 (daysInMonth y m)
          = List.range' 1 ((daysInMonth y m - dL) + dL) := by rw [e1]
        _ = List.range' 1 dL ++ List.range' (1 + dL) (daysInMonth y m - dL) :=
              (List.range'_append_1 1 dL (daysInMonth y m - dL)).symm
    rw [hsplit, List.countP_append] at hcount
    have h0 : (List.range' (1 + dL) (daysInMonth y m - dL)).countP
        (fun k => pyWeekday y m k == w) = 0 :=
      List.countP_eq_zero.mpr (fun a ha => by
        have := hLmax a (by rw [Nat.add_comm dL 1]; exact ha)
        simpa using this)
    omega

set_option maxRecDepth 100000
set_option maxHeartbeats 2000000

/-- C3: `generate_verification_token(email, list_id, secret)` is the first
12 hex characters of HMAC-SHA256 keyed by `secret` over the UTF-8 bytes of
`email + ":" + list_id`; it always has exactly 12 characters, all hexadecimal,
and (being a pure function of its arguments) is deterministic. -/
theorem token_is_truncated_hmac (email list_id secret : String) :
    generate_verification_token email list_id secret
      = strTake (hexdigest (hmacSha256 (strBytes secret)
          (strBytes (email ++ ":" ++ list_id)))) 12 ∧
    (generate_verification_token email list_id secret).length = 12 ∧
    (∀ c ∈ (generate_verification_token email list_id secret).data,
      isHexDigitChar c = true) ∧
    generate_verification_token email list_id secret
      = generate_verification_token email list_id secret :=
  ⟨rfl, token_length email list_id secret, token_hexchars email list_id secret,
    rfl⟩

/-- C4: Round-trip: verifying the token issued for the same
`(email, list_id, secret)` succeeds — `verify_token` recomputes the expected
token and compares the candidate to it. -/
theorem verify_token_roundtrip (email list_id secret : String) :
    verify_token email list_id
      (generate_verification_token email list_id secret) secret
      = .ok true := by
  unfold verify_token compare_digest
  simp [token_ascii]

/-- C5 counterexample: A non-ASCII candidate (here `"é"`, which differs
from the issued token) makes `verify_token` raise `TypeError` — Python's
`hmac.compare_digest` rejects non-ASCII `str` arguments — instead of
returning false. -/
theorem verify_token_nonascii_typeerror :
    "é" ≠ generate_verification_token "a@b.c" "L" "s" ∧
    verify_token "a@b.c" "L" "é" "s" = .error "TypeError" := by
  constructor
  · intro h
    have h1 := token_length "a@b.c" "L" "s"
    rw [← h] at h1
    simp [String.length] at h1
  · decide

/-- C5 amended: For every ASCII candidate different from the issued
token — including the empty string, truncations and case changes —
`verify_token` returns false without raising; a candidate with non-ASCII
characters instead raises `TypeError` (see the counterexample). -/
theorem verify_token_false_on_ascii_mismatch (email list_id secret c : String)
    (hA : isASCIIStr c = true)
    (hne : c ≠ generate_verification_token email list_id secret) :
    verify_token email list_id c secret = .ok false := by
  unfold verify_token compare_digest
  simp [token_ascii, hA]
  exact fun h => hne h.symm

theorem verify_token_false_on_ascii_mismatch_witness :
    verify_token "a@b.c" "L" "" "s" = .ok false :=
  verify_token_false_on_ascii_mismatch "a@b.c" "L" "s" ""
    (by decide) (by decide)

/-- C7: The claim says the phrase list has exactly 7 entries, one per
weekday.  In the source two adjacent string literals lack a separating comma,
so Python concatenates them: the list has 6 entries and `strings[6]` raises
`IndexError` whenever the Pacific-time weekday is 6 (every Sunday). -/
theorem cw_strings_missing_comma :
    cwStrings.length = 6 ∧ cw_random_string 6 = none := by
  constructor
  · rfl
  · rfl

/-- C10: The HMAC message joins email and list id with `":"`, so distinct
pairs can collide before truncation: `("a:b", "c")` and `("a", "b:c")` hash
the same message and yield identical tokens under every secret. -/
theorem token_colon_ambiguity (secret : String) :
    generate_verification_token "a:b" "c" secret
      = generate_verification_token "a" "b:c" secret ∧
    (("a:b", "c") : String × String) ≠ ("a", "b:c") := by
  constructor
  · rfl
  · decide

theorem occurrence_in_month_correct_witness :
    get_weekday_occurrence_in_month ⟨2024, 12, 1, 0⟩ = 1 ∧
    get_weekday_occurrence_in_month ⟨2024, 12, 29, 5⟩ = 5 := by
  have h := occurrence_in_month_correct 2024 12 6 1 29 (by decide) (by decide)
    (by decide) (by decide) (by decide) (by decide) (by decide)
  exact ⟨h.2.2.2.2.1, h.2.2.2.2.2⟩

/-- C6: With all three query parameters present and non-empty and both
environment variables set, the handler returns 403 without reaching the
SendGrid removal when `verify_token` returns false, and reaches removal
(200 on success) exactly when `verify_token` returns true. -/
theorem unsub_handler_auth_gate
    (params : List (String × String)) (env : String → Option String) (rm : Bool)
    (e l t key secret : String)
    (he : lookupParam params "email" = some e) (he2 : e ≠ "")
    (hl : lookupParam params "list" = some l) (hl2 : l ≠ "")
    (ht : lookupParam params "verify" = some t) (ht2 : t ≠ "")
    (hk : env "SENDGRID_API_KEY" = some key) (hk2 : key ≠ "")
    (hs : env "UNSUBSCRIBE_SECRET" = some secret) (hs2 : secret ≠ "") :
    (verify_token (pyLower e) l t secret = .ok false →
        lambda_handler (some params) env rm = ⟨403, false⟩) ∧
    ((lambda_handler (some params) env rm).removalAttempted = true ↔
        verify_token (pyLower e) l t secret = .ok true) ∧
    (verify_token (pyLower e) l t secret = .ok true → rm = true →
        lambda_handler (some params) env rm = ⟨200, true⟩) := by
  rw [lambda_handler_eval params env rm e l t key secret
    he he2 hl hl2 ht ht2 hk hk2 hs hs2]
  cases hv : verify_token (pyLower e) l t secret with
  | error err => simp
  | ok b =>
      cases b with
      | false => simp
      | true => cases rm <;> simp

theorem unsub_handler_auth_gate_witness :
    lambda_handler (some [("email", "a@b.c"), ("list", "L"), ("verify", "x")])
      (fun k => if k = "SENDGRID_API_KEY" then some "AK"
        else if k = "UNSUBSCRIBE_SECRET" then some "s" else none) true
      = ⟨403, false⟩ :=
  (unsub_handler_auth_gate [("email", "a@b.c"), ("list", "L"), ("verify", "x")]
    (fun k => if k = "SENDGRID_API_KEY" then some "AK"
      else if k = "UNSUBSCRIBE_SECRET" then some "s" else none) true
    "a@b.c" "L" "x" "AK" "s"
    rfl (by decide) rfl (by decide) rfl (by decide) rfl (by decide)
    rfl (by decide)).1 (by decide)

/-- C8: A request whose query parameters lack a non-empty `verify` key is
answered 400 with no verification or removal (likewise a missing parameter
map); the digest-built unsubscribe URL carries its token under `token` and
has no `verify` parameter, so a request formed from a digest link gets 400. -/
theorem digest_link_param_mismatch
    (params : List (String × String)) (env : String → Option String)
    (rm : Bool) (base e l s : String)
    (hv : truthy (lookupParam params "verify") = false)
    (hb : '?' ∉ base.data) (he : noQuerySpecials e) (hl : noQuerySpecials l) :
    lambda_handler (some params) env rm = ⟨400, false⟩ ∧
    lambda_handler none env rm = ⟨400, false⟩ ∧
    queryOfUrl (unsub_url base e l s)
      = [("email", e), ("list", l),
         ("token", generate_verification_token e l s)] ∧
    lambda_handler (some (queryOfUrl (unsub_url base e l s))) env rm
      = ⟨400, false⟩ := by
  have h400 : ∀ ps : List (String × String),
      truthy (lookupParam ps "verify") = false →
      lambda_handler (some ps) env rm = ⟨400, false⟩ := by
    intro ps hps
    unfold lambda_handler
    cases hemp : ps.isEmpty
    · simp only [hemp, Bool.false_eq_true, if_false, hps, Bool.and_false,
        Bool.not_false, if_true]
    · simp only [hemp, if_true]
  have hquery := digest_query_params base e l s hb he hl
  refine ⟨h400 params hv, rfl, hquery, ?_⟩
  refine h400 _ ?_
  rw [hquery]
  rfl

theorem digest_link_param_mismatch_witness :
    lambda_handler (some (queryOfUrl (unsub_url "u.example.org/unsub"
        "user@example.com" "list42" "topsecret"))) (fun _ => none) false
      = ⟨400, false⟩ :=
  (digest_link_param_mismatch [("email", "x")] (fun _ => none) false
    "u.example.org/unsub" "user@example.com" "list42" "topsecret"
    rfl (by decide) (by unfold noQuerySpecials; decide)
    (by unfold noQuerySpecials; decide)).2.2.2

end Evsrt
